import Mathlib

/-!
Verification of `salt/modules/mac_pkgutil.py` (macOS pkgutil adapter).

Python strings are embedded as `List Char`.  The external world (command
execution, filesystem) is embedded as an oracle structure `Env`; stateful
commands (`installer`, `pkgutil --forget`) take a second environment that
stands for the world after the command ran.
-/

namespace MacPkgutil

/-- Python `str`, embedded as a list of characters. -/
abbrev PyStr := List Char

/-- Exceptions the module can raise: `SaltInvocationError` (from
`salt.exceptions`), `CommandExecutionError` (from the execution collaborator),
and Python's builtin `ValueError` / `KeyError`. -/
inductive Err where
  | saltInvocationError (msg : PyStr)
  | commandExecutionError (msg : PyStr)
  | valueError (msg : PyStr)
  | keyError (msg : PyStr)
  deriving DecidableEq

/-- The external world the module talks to.

* `runResult` — `salt.utils.mac_utils.execute_return_result`, keyed by the
  command string.  Modelled from the spec: the helper is not under `src/`;
  per the spec it returns standard output text on success and raises a
  generic execution failure on nonzero exit, hence `Except Err PyStr`.
* `runSuccess` — `salt.utils.mac_utils.execute_return_success`, keyed by the
  command string.  Modelled from the spec: "execute-and-report-boolean-success,
  returning true/false based on exit status without capturing output".
* `pathExists` — `os.path.exists`. -/
structure Env where
  runResult : PyStr → Except Err PyStr
  runSuccess : PyStr → Bool
  pathExists : PyStr → Bool

/-- One splitting pass of Python `str.splitlines`: cut the string at every
line boundary (`\n`, `\r`, `\r\n` — the boundaries that occur in command
output), producing one part per segment, `count(boundaries) + 1` parts in
total.  A terminal boundary therefore yields a final empty part, which
`splitlines` drops. -/
def splitTerm : PyStr → List PyStr
  | [] => [[]]
  | c :: rest =>
    if c = '\n' then
      [] :: splitTerm rest
    else if c = '\r' then
      match rest with
      | '\n' :: rest2 => [] :: splitTerm rest2
      | r => [] :: splitTerm r
    else
      match splitTerm rest with
      | [] => [[c]]
      | h :: t => (c :: h) :: t

/-- Python `str.splitlines()`: the parts of `splitTerm`, except that the
empty string gives `[]` and a terminal line boundary does not produce a
trailing empty line. -/
def splitlines (s : PyStr) : List PyStr :=
  let parts := splitTerm s
  if parts.getLast? = some [] then parts.dropLast else parts

/-- Python `str.split(':')` (no maxsplit): split at EVERY colon;
`count(':') + 1` parts. -/
def pySplitColon : PyStr → List PyStr
  | [] => [[]]
  | c :: rest =>
    if c = ':' then
      [] :: pySplitColon rest
    else
      match pySplitColon rest with
      | [] => [[c]]
      | h :: t => (c :: h) :: t

/-- One step of Python `dict(iterable)`: an element must be a sequence of
length exactly 2, otherwise `ValueError`. -/
def toPair : List PyStr → Except Err (PyStr × PyStr)
  | [k, v] => Except.ok (k, v)
  | _ => Except.error (.valueError ("dictionary update sequence element has wrong length; 2 is required".data))

/-- Python `dict(items)` over key/value sequences: fails with `ValueError`
at the first element that is not a pair. -/
def pyDict : List (List PyStr) → Except Err (List (PyStr × PyStr))
  | [] => Except.ok []
  | i :: rest => do
    let p ← toPair i
    let d ← pyDict rest
    return p :: d

/-- Python `dict` lookup on the association list built by `pyDict`
(duplicate keys: the last binding wins, as in `dict`). -/
def dictGet (d : List (PyStr × PyStr)) (k : PyStr) : Option PyStr :=
  (d.reverse.find? (fun kv => kv.1 == k)).map (·.2)

/-- Python whitespace stripped by `int()` around a numeric literal. -/
def isPySpace (c : Char) : Bool :=
  c == ' ' || c == '\t' || c == '\n' || c == '\r' || c == '\x0b' || c == '\x0c'

/-- Strip leading and trailing whitespace (as `int()` does). -/
def stripWs (s : PyStr) : PyStr :=
  ((s.dropWhile isPySpace).reverse.dropWhile isPySpace).reverse

/-- Digits of a decimal literal after the first digit; Python allows single
underscores between digits. -/
def digitsAux : PyStr → Nat → Option Nat
  | [], acc => some acc
  | '_' :: c :: rest, acc =>
    if c.isDigit then digitsAux rest (acc * 10 + (c.toNat - 48)) else none
  | c :: rest, acc =>
    if c.isDigit then digitsAux rest (acc * 10 + (c.toNat - 48)) else none

/-- A nonempty run of decimal digits (with Python's underscore rule). -/
def parseDigits : PyStr → Option Nat
  | [] => none
  | c :: rest => if c.isDigit then digitsAux rest (c.toNat - 48) else none

/-- The `ValueError` raised by `int()` on a bad literal. -/
def pyIntErr (s : PyStr) : Err :=
  .valueError ("invalid literal for int() with base 10: ".data ++ s)

/-- Python `int(s)` on a string: strip whitespace, optional sign, decimal
digits; `ValueError` otherwise. -/
def pyInt (s : PyStr) : Except Err Int :=
  match stripWs s with
  | '+' :: rest =>
    match parseDigits rest with
    | some n => Except.ok (n : Int)
    | none => Except.error (pyIntErr s)
  | '-' :: rest =>
    match parseDigits rest with
    | some n => Except.ok (-(n : Int))
    | none => Except.error (pyIntErr s)
  | t =>
    match parseDigits t with
    | some n => Except.ok (n : Int)
    | none => Except.error (pyIntErr s)

/-- A broken-down local time, as returned by `time.localtime`. -/
structure Tm where
  tm_year : Nat
  tm_mon : Nat
  tm_mday : Nat
  tm_hour : Nat
  tm_min : Nat
  tm_sec : Nat

/-- `%m`/`%d`/`%H`/`%M`/`%S`: zero-padded two-digit decimal (values of a
valid `struct_time` are below 100). -/
def pad2 (n : Nat) : PyStr :=
  if n < 100 then [Nat.digitChar (n / 10), Nat.digitChar (n % 10)]
  else Nat.toDigits 10 n

/-- `%Y`: the year, four digits for the years 1000–9999 that `localtime`
produces for realistic epochs. -/
def pad4 (n : Nat) : PyStr :=
  if n < 10000 then
    [Nat.digitChar (n / 1000), Nat.digitChar (n / 100 % 10),
     Nat.digitChar (n / 10 % 10), Nat.digitChar (n % 10)]
  else Nat.toDigits 10 n

/-- `time.strftime('%Y-%m-%d %H:%M:%S', t)`. -/
def strftimeYmdHMS (t : Tm) : PyStr :=
  pad4 t.tm_year ++ ['-'] ++ pad2 t.tm_mon ++ ['-'] ++ pad2 t.tm_mday ++
    [' '] ++ pad2 t.tm_hour ++ [':'] ++ pad2 t.tm_min ++ [':'] ++ pad2 t.tm_sec

/-- Decidable check that a string has the shape `YYYY-MM-DD hh:mm:ss`. -/
def matchesTimePattern : PyStr → Bool
  | [y1, y2, y3, y4, '-', m1, m2, '-', d1, d2, ' ',
     h1, h2, ':', n1, n2, ':', s1, s2] =>
    y1.isDigit && y2.isDigit && y3.isDigit && y4.isDigit &&
    m1.isDigit && m2.isDigit && d1.isDigit && d2.isDigit &&
    h1.isDigit && h2.isDigit && n1.isDigit && n2.isDigit &&
    s1.isDigit && s2.isDigit
  | _ => false

/-- A character allowed in a URI scheme after the first one
(`urllib.parse` scheme characters: letters, digits, `+`, `-`, `.`). -/
def schemeChar (c : Char) : Bool :=
  c.isAlpha || c.isDigit || c == '+' || c == '-' || c == '.'

/-- `urllib.parse.urlparse(url).scheme`: nonempty exactly when the text
before the first `:` (at a positive position) starts with an ASCII letter
and continues with scheme characters; the scheme is lowercased. -/
def urlparseScheme (url : PyStr) : PyStr :=
  match url.findIdx? (fun c => c == ':') with
  | none => []
  | some i =>
    match url with
    | [] => []
    | c0 :: _ =>
      if 0 < i ∧ c0.isAlpha ∧ ((url.take i).drop 1).all schemeChar then
        (url.take i).map Char.toLower
      else []

/-- The command string of `list_`. -/
def list_cmd : PyStr := "pkgutil --pkgs".data

/-- `list_()`: run `pkgutil --pkgs` and split its output into lines. -/
def list_ (env : Env) : Except Err (List PyStr) := do
  let ret ← env.runResult list_cmd
  return splitlines ret

/-- `is_installed(package_id)`: membership of the id in `list_()`. -/
def is_installed (env : Env) (package_id : PyStr) : Except Err Bool := do
  let pkgs ← list_ env
  return pkgs.contains package_id

/-- The command string `'pkgutil --pkg-info {}'.format(package_id)`. -/
def info_cmd (package_id : PyStr) : PyStr :=
  "pkgutil --pkg-info ".data ++ package_id

/-- The `SaltInvocationError` message of `info` on a missing package. -/
def notInstalledMsg (package_id : PyStr) : PyStr :=
  "Package ID ".data ++ package_id ++ " is not installed".data

/-- `info(package_id)`: if installed, run the info command and build a dict
from `item.split(':')` over the output lines; otherwise raise
`SaltInvocationError`. -/
def info (env : Env) (package_id : PyStr) :
    Except Err (List (PyStr × PyStr)) := do
  let inst ← is_installed env package_id
  if inst then do
    let result ← env.runResult (info_cmd package_id)
    pyDict ((splitlines result).map pySplitColon)
  else
    Except.error (.saltInvocationError (notInstalledMsg package_id))

/-- `version(package_id)`: the `'version'` entry of `info`
(`KeyError` when absent, as for a Python dict subscript). -/
def version (env : Env) (package_id : PyStr) : Except Err PyStr := do
  let ret ← info env package_id
  match dictGet ret ("version".data) with
  | some v => return v
  | none => Except.error (.keyError ("version".data))

/-- `_install_from_path(path)`: `SaltInvocationError` when the path does not
exist, otherwise the boolean outcome of the `installer` command
(`execute_return_success`, modelled from the spec as returning a boolean). -/
def _install_from_path (env : Env) (path : PyStr) : Except Err Bool :=
  if env.pathExists path = false then
    Except.error (.saltInvocationError ("File not found: ".data ++ path))
  else
    Except.ok (env.runSuccess ("installer -pkg ".data ++ path ++ " -target /".data))

/-- `install(source, package_id)`.  `env` is the world before the installer
command, `envAfter` the world after it ran. -/
def install (env envAfter : Env) (source package_id : PyStr) :
    Except Err Bool := do
  let inst ← is_installed env package_id
  if inst then
    return true
  else
    if urlparseScheme source = [] then do
      let _ ← _install_from_path env source
      is_installed envAfter package_id
    else
      Except.error (.saltInvocationError
        ("Unsupported scheme for source uri: ".data ++ urlparseScheme source))

/-- `install_time(package_id, convert)`: `int(info(p)['install-time'])`,
returned raw when `convert` is falsy, otherwise formatted through
`time.localtime` (the host clock, a parameter) and `strftime`. -/
def install_time (env : Env) (localtime : Int → Tm) (package_id : PyStr)
    (convert : Option Bool) : Except Err (Int ⊕ PyStr) := do
  let pkginfo ← info env package_id
  match dictGet pkginfo ("install-time".data) with
  | none => Except.error (.keyError ("install-time".data))
  | some v => do
    let install_datetime ← pyInt v
    match convert with
    | some true => return Sum.inr (strftimeYmdHMS (localtime install_datetime))
    | _ => return Sum.inl install_datetime

/-- `forget(package_id)`: run `pkgutil --forget` (outcome discarded;
`execute_return_success` modelled from the spec as returning a boolean), then
return the negated installation state in the post-command world `envAfter`. -/
def forget (env envAfter : Env) (package_id : PyStr) : Except Err Bool := do
  let _ := env.runSuccess ("pkgutil --forget ".data ++ package_id)
  let inst ← is_installed envAfter package_id
  return !inst

/-! ### Concrete worlds used to instantiate the theorems -/

/-- A world in which exactly the package `com.a` is installed. -/
def envOne : Env where
  runResult := fun c => if c = list_cmd then Except.ok ("com.a".data) else Except.ok []
  runSuccess := fun _ => false
  pathExists := fun _ => false

/-- A world with no packages installed. -/
def envNone : Env where
  runResult := fun _ => Except.ok []
  runSuccess := fun _ => true
  pathExists := fun _ => true

/-- A world whose commands all fail with an execution error. -/
def envListFail : Env where
  runResult := fun _ =>
    Except.error (.commandExecutionError ("Command failed: pkgutil --pkgs".data))
  runSuccess := fun _ => true
  pathExists := fun _ => true

/-- A world in which `com.a` is installed and the info command prints one
line containing two colons. -/
def envTwoColons : Env where
  runResult := fun c =>
    if c = list_cmd then Except.ok ("com.a".data) else Except.ok ("a:b:c".data)
  runSuccess := fun _ => true
  pathExists := fun _ => true

/-- A world whose listing output has an interior empty line. -/
def envBlankLine : Env where
  runResult := fun _ => Except.ok ("a\n\nb".data)
  runSuccess := fun _ => true
  pathExists := fun _ => true

/-- A world in which `com.a` is installed, with well-formed info output. -/
def envWithInfo : Env where
  runResult := fun c =>
    if c = list_cmd then Except.ok ("com.a".data)
    else Except.ok ("install-time: 1234\nversion: 1.0".data)
  runSuccess := fun _ => true
  pathExists := fun _ => true

/-- A world with nothing installed in which the path `/tmp/x.pkg` exists. -/
def envInstallable : Env where
  runResult := fun _ => Except.ok []
  runSuccess := fun _ => true
  pathExists := fun path => path == "/tmp/x.pkg".data

/-- The world after the installer ran: `com.new` is now listed. -/
def envAfterInstall : Env where
  runResult := fun _ => Except.ok ("com.new".data)
  runSuccess := fun _ => true
  pathExists := fun _ => true

/-- A fixed host clock used to instantiate time-formatting theorems. -/
def clock0 : Int → Tm := fun _ => ⟨2024, 5, 7, 3, 4, 5⟩

/-! ### Helper lemmas about the embedded Python primitives -/

theorem bindOk {α β : Type} (a : α) (f : α → Except Err β) :
    (Except.ok a >>= f) = f a := rfl

theorem bindErr {α β : Type} (e : Err) (f : α → Except Err β) :
    ((Except.error e : Except Err α) >>= f) = Except.error e := rfl

theorem pureOk {α : Type} (a : α) : (pure a : Except Err α) = Except.ok a := rfl

theorem splitTerm_ne_nil (s : PyStr) : splitTerm s ≠ [] := by
  rw [splitTerm.eq_def]
  split
  · simp
  · split
    · simp
    · split
      · split
        · simp
        · simp
      · split
        · simp
        · simp

theorem mem_splitTerm_no_break (s : PyStr) :
    ∀ l ∈ splitTerm s, '\n' ∉ l ∧ '\r' ∉ l := by
  induction s using splitTerm.induct with
  | case1 =>
    intro l hl
    simp [splitTerm] at hl
    simp [hl]
  | case2 rest ih =>
    intro l hl
    rw [splitTerm.eq_def] at hl
    simp only [if_pos rfl] at hl
    rcases List.mem_cons.mp hl with h | h
    · simp [h]
    · exact ih l h
  | case3 rest2 hne ih =>
    intro l hl
    rw [splitTerm.eq_def] at hl
    simp only [if_neg (by decide : ¬('\r' : Char) = '\n'), if_pos rfl] at hl
    rcases List.mem_cons.mp hl with h | h
    · simp [h]
    · exact ih l h
  | case4 r hr hne ih =>
    intro l hl
    rw [splitTerm.eq_def] at hl
    simp only [if_neg (by decide : ¬('\r' : Char) = '\n'), if_pos rfl] at hl
    have hmem : l ∈ ([] : PyStr) :: splitTerm r := by
      revert hl
      match r, hr with
      | [], _ => intro hl; exact hl
      | c :: rest, hr =>
        match c, rest with
        | '\n', rest => exact fun hl => absurd (hr rest rfl) (by simp)
        | c, rest => intro hl; exact hl
    rcases List.mem_cons.mp hmem with h | h
    · simp [h]
    · exact ih l h
  | case5 c rest h1 h2 hnil ih =>
    exact absurd hnil (splitTerm_ne_nil rest)
  | case6 c rest h1 h2 h t heq ih =>
    intro l hl
    rw [splitTerm.eq_def] at hl
    simp only [if_neg h1, if_neg h2, heq] at hl
    rcases List.mem_cons.mp hl with hh | hh
    · subst hh
      have hmem := ih h (heq ▸ List.mem_cons_self h t)
      refine ⟨?_, ?_⟩
      · intro hc
        rcases List.mem_cons.mp hc with hc | hc
        · exact h1 hc.symm
        · exact hmem.1 hc
      · intro hc
        rcases List.mem_cons.mp hc with hc | hc
        · exact h2 hc.symm
        · exact hmem.2 hc
    · exact ih l (heq ▸ List.mem_cons_of_mem h hh)

theorem mem_splitlines_no_break (s : PyStr) :
    ∀ l ∈ splitlines s, '\n' ∉ l ∧ '\r' ∉ l := by
  intro l hl
  apply mem_splitTerm_no_break s
  simp only [splitlines] at hl
  split at hl
  · exact List.mem_of_mem_dropLast hl
  · exact hl

theorem pySplitColon_ne_nil (l : PyStr) : pySplitColon l ≠ [] := by
  rw [pySplitColon.eq_def]
  split
  · simp
  · split
    · simp
    · split
      · simp
      · simp

theorem length_pySplitColon (l : PyStr) :
    (pySplitColon l).length = l.count ':' + 1 := by
  induction l using pySplitColon.induct with
  | case1 => simp [pySplitColon]
  | case2 rest ih =>
    rw [pySplitColon.eq_def]
    simp [List.count_cons_self]
    omega
  | case3 c rest hc hnil ih =>
    exact absurd hnil (pySplitColon_ne_nil rest)
  | case4 c rest hc h t heq ih =>
    rw [pySplitColon.eq_def]
    simp only [if_neg hc, heq, List.length_cons, List.count_cons]
    rw [heq] at ih
    simp only [List.length_cons] at ih
    have hbeq1 : (c == ':') = false := by
      simp [hc]
    have hbeq2 : (':' == c) = false := by
      simp
      exact fun hp => hc hp.symm
    simp [hbeq1, hbeq2]
    omega

theorem pySplitColon_count_zero (l : PyStr) (h : l.count ':' = 0) :
    pySplitColon l = [l] := by
  induction l using pySplitColon.induct with
  | case1 => simp [pySplitColon]
  | case2 rest ih =>
    simp at h
  | case3 c rest hc hnil ih =>
    exact absurd hnil (pySplitColon_ne_nil rest)
  | case4 c rest hc h2 t heq ih =>
    rw [pySplitColon.eq_def]
    simp only [if_neg hc, heq]
    have hrest : rest.count ':' = 0 := by
      rw [List.count_cons] at h
      omega
    have := ih hrest
    rw [heq] at this
    cases this
    rfl

theorem pySplitColon_count_one (l : PyStr) (h : l.count ':' = 1) :
    pySplitColon l =
      [l.takeWhile (fun c => c != ':'), (l.dropWhile (fun c => c != ':')).tail] := by
  induction l using pySplitColon.induct with
  | case1 => simp at h
  | case2 rest ih =>
    have hrest : rest.count ':' = 0 := by
      simp [List.count_cons] at h
      omega
    rw [pySplitColon.eq_def]
    simp only [if_pos rfl]
    rw [pySplitColon_count_zero rest hrest]
    simp [List.takeWhile, List.dropWhile]
  | case3 c rest hc hnil ih =>
    exact absurd hnil (pySplitColon_ne_nil rest)
  | case4 c rest hc h2 t heq ih =>
    have hbeq1 : (c == ':') = false := by simp [hc]
    have hbeq2 : (':' == c) = false := by
      simp
      exact fun hp => hc hp.symm
    have hrest : rest.count ':' = 1 := by
      rw [List.count_cons] at h
      simp [hbeq1, hbeq2] at h
      exact h
    have hr := ih hrest
    rw [pySplitColon.eq_def]
    simp only [if_neg hc, heq]
    rw [heq] at hr
    cases hr
    have hne : (c != ':') = true := by simp [bne, hbeq1]
    simp [List.takeWhile, List.dropWhile, hne]

theorem toPair_ok_length (i : List PyStr) (p : PyStr × PyStr)
    (h : toPair i = Except.ok p) : i.length = 2 := by
  cases i with
  | nil => simp [toPair] at h
  | cons a t =>
    cases t with
    | nil => simp [toPair] at h
    | cons b t2 =>
      cases t2 with
      | nil => rfl
      | cons c t3 => simp [toPair] at h

theorem pyDict_map_pair (lines : List PyStr) (f : PyStr → PyStr × PyStr)
    (h : ∀ l ∈ lines, pySplitColon l = [(f l).1, (f l).2]) :
    pyDict (lines.map pySplitColon) = Except.ok (lines.map f) := by
  induction lines with
  | nil => simp [pyDict]
  | cons x xs ih =>
    simp only [List.map_cons, pyDict]
    rw [h x (List.mem_cons_self x xs)]
    have htp : toPair [(f x).1, (f x).2] = Except.ok (f x) := rfl
    rw [htp, bindOk, ih (fun l hl => h l (List.mem_cons_of_mem x hl)), bindOk, pureOk]

theorem pyDict_ok_toPair (items : List (List PyStr)) (d : List (PyStr × PyStr))
    (h : pyDict items = Except.ok d) :
    ∀ i ∈ items, ∃ p, toPair i = Except.ok p := by
  induction items generalizing d with
  | nil => simp
  | cons x xs ih =>
    intro i hi
    simp only [pyDict] at h
    cases htp : toPair x with
    | error e =>
      rw [htp, bindErr] at h
      cases h
    | ok p =>
      rw [htp, bindOk] at h
      cases hd : pyDict xs with
      | error e =>
        rw [hd, bindErr] at h
        cases h
      | ok d2 =>
        rcases List.mem_cons.mp hi with rfl | hi
        · exact ⟨p, htp⟩
        · exact ih d2 hd i hi

theorem pyInt_error_isValueError (s : PyStr) (e : Err)
    (h : pyInt s = Except.error e) : ∃ m, e = Err.valueError m := by
  rw [pyInt.eq_def] at h
  split at h
  all_goals split at h
  all_goals cases h
  all_goals exact ⟨_, rfl⟩

theorem isDigit_digitChar (n : Nat) (h : n < 10) :
    (Nat.digitChar n).isDigit = true := by
  interval_cases n <;> decide

theorem matchesTimePattern_strftime (t : Tm)
    (hy : t.tm_year < 10000) (hmo : t.tm_mon < 100) (hd : t.tm_mday < 100)
    (hh : t.tm_hour < 100) (hmi : t.tm_min < 100) (hs : t.tm_sec < 100) :
    matchesTimePattern (strftimeYmdHMS t) = true := by
  unfold strftimeYmdHMS pad4 pad2
  rw [if_pos hy, if_pos hmo, if_pos hd, if_pos hh, if_pos hmi, if_pos hs]
  simp only [List.cons_append, List.nil_append]
  simp only [matchesTimePattern, Bool.and_eq_true]
  repeat' apply And.intro
  all_goals exact isDigit_digitChar _ (by omega)

theorem list_cmd_ne_info_cmd (p : PyStr) : list_cmd ≠ info_cmd p := by
  intro h
  have hl := congrArg List.length h
  rw [info_cmd, List.length_append] at hl
  have h1 : list_cmd.length = 14 := rfl
  have h19 : ("pkgutil --pkg-info ".data).length = 19 := rfl
  omega

/-! ### Claim theorems -/

/-- C3 counterexample: with listing output `"a\n\nb"` the code returns the
interior empty line, so the result is not the sequence of non-empty lines. -/
theorem list_empty_line_counterexample :
    list_ envBlankLine = Except.ok [['a'], [], ['b']] ∧
    ([] : PyStr) ∈ [['a'], ([] : PyStr), ['b']] := by
  refine ⟨rfl, ?_⟩
  simp

/-- C3 (amended): `list()` returns exactly `splitlines` of the listing
command's standard output, in the tool's native order; interior empty lines
are preserved (only a terminal line break adds no line), and every returned
element is free of line-break characters. -/
theorem list_returns_splitlines (env : Env) (out : PyStr)
    (h : env.runResult list_cmd = Except.ok out) :
    list_ env = Except.ok (splitlines out) ∧
    ∀ l ∈ splitlines out, '\n' ∉ l ∧ '\r' ∉ l := by
  constructor
  · simp only [list_, h, bindOk, pureOk]
  · exact mem_splitlines_no_break out

/-- C3 witness: the amended theorem instantiated at the blank-line world. -/
theorem list_returns_splitlines_witness :
    list_ envBlankLine = Except.ok (splitlines ("a\n\nb".data)) ∧
    ∀ l ∈ splitlines ("a\n\nb".data), '\n' ∉ l ∧ '\r' ∉ l :=
  list_returns_splitlines envBlankLine ("a\n\nb".data) rfl

/-- C9 counterexample: when the listing command fails, `is_installed`
propagates the execution error instead of returning a boolean, so an error
CAN be raised by `is_installed`. -/
theorem is_installed_error_counterexample :
    is_installed envListFail ("com.a".data) =
      Except.error (.commandExecutionError ("Command failed: pkgutil --pkgs".data)) := rfl

/-- C9 (amended): when the listing command succeeds, `is_installed p` returns
exactly the membership of `p` (exact string equality) in `list()`; absent
ids yield false; a listing-command failure propagates as an error (see
counterexample). -/
theorem is_installed_membership (env : Env) (out p : PyStr)
    (h : env.runResult list_cmd = Except.ok out) :
    ∃ b, is_installed env p = Except.ok b ∧ (b = true ↔ p ∈ splitlines out) := by
  refine ⟨(splitlines out).contains p, ?_, ?_⟩
  · simp only [is_installed, list_, h, bindOk, pureOk]
  · exact List.elem_iff

/-- C9 witness: membership of the sole installed package. -/
theorem is_installed_membership_witness :
    ∃ b, is_installed envOne ("com.a".data) = Except.ok b ∧
      (b = true ↔ "com.a".data ∈ splitlines ("com.a".data)) :=
  is_installed_membership envOne ("com.a".data) ("com.a".data) rfl

/-- C5: if `p` is already installed, `install(source, p)` returns true for
every source and post-world, and stays true however `pathExists` and
`runSuccess` answer — the source is never parsed, the filesystem never
checked and the installer never consulted. -/
theorem install_idempotent (env : Env) (p : PyStr)
    (h : is_installed env p = Except.ok true) :
    ∀ (source : PyStr) (envAfter : Env),
      install env envAfter source p = Except.ok true ∧
      ∀ pe rs : PyStr → Bool,
        install { env with pathExists := pe, runSuccess := rs } envAfter source p =
          Except.ok true := by
  intro source envAfter
  have base : ∀ pe rs : PyStr → Bool,
      install { env with pathExists := pe, runSuccess := rs } envAfter source p =
        Except.ok true := by
    intro pe rs
    have h2 : is_installed { env with pathExists := pe, runSuccess := rs } p =
        Except.ok true := h
    simp only [install, h2, bindOk]
    rfl
  exact ⟨base env.pathExists env.runSuccess, base⟩

/-- C5 witness: an installed package with an http source, an absent path and
a failing installer still returns true. -/
theorem install_idempotent_witness :
    install envOne envListFail ("http://example.com/pkg".data) ("com.a".data) =
      Except.ok true :=
  (install_idempotent envOne ("com.a".data) rfl
    ("http://example.com/pkg".data) envListFail).1

/-- C1 counterexample: for an already-installed `p`, `install("http://…", p)`
returns true instead of failing — the idempotent short-circuit runs before
the scheme check, so rejection does NOT happen regardless of `p`'s state. -/
theorem install_scheme_counterexample :
    install envOne envOne ("http://example.com/pkg".data) ("com.a".data) =
      Except.ok true := rfl

/-- C1 (amended): for `p` NOT already installed (with the listing command
succeeding), any source whose URI scheme is non-empty is rejected with a
`SaltInvocationError` naming the scheme. -/
theorem install_rejects_scheme (env envAfter : Env) (source p : PyStr)
    (h0 : is_installed env p = Except.ok false)
    (hs : urlparseScheme source ≠ []) :
    install env envAfter source p =
      Except.error (.saltInvocationError
        ("Unsupported scheme for source uri: ".data ++ urlparseScheme source)) := by
  simp only [install, h0, bindOk]
  rw [if_neg (by simp), if_neg hs]

/-- C1 witness: the empty world rejects an http source. -/
theorem install_rejects_scheme_witness :
    install envNone envNone ("http://example.com/pkg".data) ("com.a".data) =
      Except.error (.saltInvocationError
        ("Unsupported scheme for source uri: ".data ++
          urlparseScheme ("http://example.com/pkg".data))) :=
  install_rejects_scheme envNone envNone ("http://example.com/pkg".data)
    ("com.a".data) rfl (by decide)

/-- C4: for `p` not installed and a bare-path source: a nonexistent path
fails with `SaltInvocationError`; an existing path runs the installer
(`installer -pkg <path> -target /`) and the returned boolean is exactly the
post-install `is_installed` check, unchanged under any answer of the
installer command (`runSuccess` arbitrary — its status is advisory). -/
theorem install_local_path (env envAfter : Env) (source p : PyStr)
    (h0 : is_installed env p = Except.ok false)
    (hs : urlparseScheme source = []) :
    (env.pathExists source = false →
      install env envAfter source p =
        Except.error (.saltInvocationError ("File not found: ".data ++ source))) ∧
    (env.pathExists source = true →
      ∀ b, is_installed envAfter p = Except.ok b →
        install env envAfter source p = Except.ok b ∧
        ∀ rs : PyStr → Bool,
          install { env with runSuccess := rs } envAfter source p = Except.ok b) := by
  constructor
  · intro hp
    simp only [install, h0, bindOk]
    rw [if_neg (by simp), if_pos hs]
    simp only [_install_from_path, if_pos hp, bindErr]
  · intro hp b hb
    have base : ∀ rs : PyStr → Bool,
        install { env with runSuccess := rs } envAfter source p = Except.ok b := by
      intro rs
      have h0' : is_installed { env with runSuccess := rs } p = Except.ok false := h0
      simp only [install, h0', bindOk]
      rw [if_neg (by simp), if_pos hs]
      simp only [_install_from_path]
      rw [hp, if_neg (by simp)]
      simp only [bindOk, hb]
    refine ⟨?_, base⟩
    have := base env.runSuccess
    exact this

/-- C4 witness: installing an existing local package file succeeds and
reports the post-install state. -/
theorem install_local_path_witness :
    install envInstallable envAfterInstall ("/tmp/x.pkg".data) ("com.new".data) =
      Except.ok true :=
  ((install_local_path envInstallable envAfterInstall ("/tmp/x.pkg".data)
    ("com.new".data) rfl rfl).2 rfl true rfl).1

/-- C6: for `p` not installed, `info` fails with a `SaltInvocationError`
whose message embeds `p`, whatever the info command would answer (it is not
consulted: only the listing command's response matters), and `version` and
`install_time` inherit the identical failure. -/
theorem info_not_installed (env : Env) (p : PyStr)
    (h : is_installed env p = Except.ok false) :
    (∀ r, info { env with
        runResult := fun c => if c = info_cmd p then r else env.runResult c } p =
      Except.error (.saltInvocationError (notInstalledMsg p))) ∧
    info env p = Except.error (.saltInvocationError (notInstalledMsg p)) ∧
    (∃ a b, notInstalledMsg p = a ++ p ++ b) ∧
    version env p = Except.error (.saltInvocationError (notInstalledMsg p)) ∧
    (∀ (localtime : Int → Tm) (convert : Option Bool),
      install_time env localtime p convert =
        Except.error (.saltInvocationError (notInstalledMsg p))) := by
  have key : ∀ env2 : Env, env2.runResult list_cmd = env.runResult list_cmd →
      info env2 p = Except.error (.saltInvocationError (notInstalledMsg p)) := by
    intro env2 he
    have h2 : is_installed env2 p = Except.ok false := by
      have heq : is_installed env2 p = is_installed env p := by
        simp only [is_installed, list_, he]
      rw [heq, h]
    simp only [info, h2, bindOk]
    rfl
  have hinfo : info env p = Except.error (.saltInvocationError (notInstalledMsg p)) :=
    key env rfl
  refine ⟨?_, hinfo, ?_, ?_, ?_⟩
  · intro r
    refine key _ ?_
    show (if list_cmd = info_cmd p then r else env.runResult list_cmd) =
      env.runResult list_cmd
    rw [if_neg (list_cmd_ne_info_cmd p)]
  · exact ⟨"Package ID ".data, " is not installed".data, rfl⟩
  · simp only [version, hinfo, bindErr]
  · intro localtime convert
    simp only [install_time, hinfo, bindErr]

/-- C6 witness: the empty world rejects an info query for `com.x`. -/
theorem info_not_installed_witness :
    version envNone ("com.x".data) =
      Except.error (.saltInvocationError (notInstalledMsg ("com.x".data))) :=
  (info_not_installed envNone ("com.x".data) rfl).2.2.2.1

/-- C7: `forget` returns exactly the negation of the post-command
installation state — true iff the package is no longer listed — and the
receipt-removal command's own boolean outcome is ignored (`runSuccess`
arbitrary), so a no-op forget of an unknown id still reports true. -/
theorem forget_reports_not_installed (env envAfter : Env) (p : PyStr) (b : Bool)
    (h : is_installed envAfter p = Except.ok b) :
    forget env envAfter p = Except.ok (!b) ∧
    (∀ rs : PyStr → Bool, forget { env with runSuccess := rs } envAfter p = Except.ok (!b)) ∧
    (b = false → forget env envAfter p = Except.ok true) := by
  have base : ∀ env1 : Env, forget env1 envAfter p = Except.ok (!b) := by
    intro env1
    simp only [forget, h, bindOk]
    rfl
  exact ⟨base env, fun rs => base _, fun hb => by rw [base env, hb]; rfl⟩

/-- C7 witness: forgetting a package absent from the post-command world
reports true. -/
theorem forget_reports_not_installed_witness :
    forget envOne envNone ("com.gone".data) = Except.ok true :=
  (forget_reports_not_installed envOne envNone ("com.gone".data) false rfl).2.2 rfl

/-- C2 counterexample: on an info line `"a:b:c"` (two colons) the code raises
`ValueError` from `dict(item.split(':'))` — it does NOT split at the first
colon into key `"a"` and value `"b:c"`, and returns no mapping at all. -/
theorem info_first_colon_counterexample :
    info envTwoColons ("com.a".data) =
      Except.error (.valueError
        ("dictionary update sequence element has wrong length; 2 is required".data)) ∧
    ∀ d, info envTwoColons ("com.a".data) ≠ Except.ok d := by
  have h1 : info envTwoColons ("com.a".data) =
      Except.error (.valueError
        ("dictionary update sequence element has wrong length; 2 is required".data)) := rfl
  refine ⟨h1, fun d hd => ?_⟩
  rw [h1] at hd
  cases hd

/-- C2 (amended): `info` splits each output line at `':'` requiring exactly
one colon per line; on such lines the key is the text before the colon and
the value the text after it (lines with zero or several colons raise
instead, see C10). -/
theorem info_parses_single_colon_lines (env : Env) (p out : PyStr)
    (hinst : is_installed env p = Except.ok true)
    (hout : env.runResult (info_cmd p) = Except.ok out)
    (hlines : ∀ l ∈ splitlines out, l.count ':' = 1) :
    info env p = Except.ok ((splitlines out).map
      (fun l => (l.takeWhile (fun c => c != ':'),
                 (l.dropWhile (fun c => c != ':')).tail))) := by
  simp only [info, hinst, bindOk]
  rw [if_true]
  simp only [hout, bindOk]
  exact pyDict_map_pair (splitlines out) _
    (fun l hl => pySplitColon_count_one l (hlines l hl))

/-- C2 witness: the amended theorem at a well-formed two-line info output. -/
theorem info_parses_single_colon_lines_witness :
    info envWithInfo ("com.a".data) =
      Except.ok ((splitlines ("install-time: 1234\nversion: 1.0".data)).map
        (fun l => (l.takeWhile (fun c => c != ':'),
                   (l.dropWhile (fun c => c != ':')).tail))) :=
  info_parses_single_colon_lines envWithInfo ("com.a".data)
    ("install-time: 1234\nversion: 1.0".data) rfl rfl (by decide)

/-- C10: when some line of the info output has a colon count different from
one, `info` raises an exception instead of returning a mapping (malformed
lines are neither skipped nor first-colon-split), and `version` and
`install_time` fail on the same output as well. -/
theorem info_malformed_line_raises (env : Env) (p out : PyStr)
    (hinst : is_installed env p = Except.ok true)
    (hout : env.runResult (info_cmd p) = Except.ok out)
    (hbad : ∃ l ∈ splitlines out, l.count ':' ≠ 1) :
    (∃ e, info env p = Except.error e) ∧
    (∃ e, version env p = Except.error e) ∧
    (∀ (localtime : Int → Tm) (convert : Option Bool),
      ∃ e, install_time env localtime p convert = Except.error e) := by
  obtain ⟨l, hl, hcount⟩ := hbad
  have hform : info env p = pyDict ((splitlines out).map pySplitColon) := by
    simp only [info, hinst, bindOk]
    rw [if_true]
    simp only [hout, bindOk]
  have hinfo : ∃ e, info env p = Except.error e := by
    cases hres : pyDict ((splitlines out).map pySplitColon) with
    | error e => exact ⟨e, by rw [hform, hres]⟩
    | ok d =>
      exfalso
      obtain ⟨pr, hpr⟩ := pyDict_ok_toPair _ d hres (pySplitColon l)
        (List.mem_map_of_mem pySplitColon hl)
      have hlen := toPair_ok_length _ pr hpr
      rw [length_pySplitColon] at hlen
      omega
  obtain ⟨e, he⟩ := hinfo
  refine ⟨⟨e, he⟩, ⟨e, ?_⟩, fun localtime convert => ⟨e, ?_⟩⟩
  · simp only [version, he, bindErr]
  · simp only [install_time, he, bindErr]

/-- C10 witness: the two-colon world makes `info` raise. -/
theorem info_malformed_line_raises_witness :
    ∃ e, info envTwoColons ("com.a".data) = Except.error e :=
  (info_malformed_line_raises envTwoColons ("com.a".data) ("a:b:c".data)
    rfl rfl (by decide)).1

/-- C8: with `p` installed and its parsed info containing an `install-time`
entry: `convert = false` (or omitted) returns the raw integer parsed from
the stored value; `convert = true` returns the `localtime`-formatted string,
which matches the fixed pattern `YYYY-MM-DD hh:mm:ss` whenever the clock's
fields are in range; and a stored value that is not an integer makes the
call fail with a `ValueError`. -/
theorem install_time_spec (env : Env) (p : PyStr)
    (d : List (PyStr × PyStr)) (v : PyStr)
    (hinfo : info env p = Except.ok d)
    (hv : dictGet d ("install-time".data) = some v) :
    (∀ n : Int, pyInt v = Except.ok n → ∀ localtime : Int → Tm,
      install_time env localtime p (some false) = Except.ok (Sum.inl n) ∧
      install_time env localtime p none = Except.ok (Sum.inl n) ∧
      install_time env localtime p (some true) =
        Except.ok (Sum.inr (strftimeYmdHMS (localtime n))) ∧
      ((localtime n).tm_year < 10000 → (localtime n).tm_mon < 100 →
       (localtime n).tm_mday < 100 → (localtime n).tm_hour < 100 →
       (localtime n).tm_min < 100 → (localtime n).tm_sec < 100 →
       matchesTimePattern (strftimeYmdHMS (localtime n)) = true)) ∧
    (∀ e : Err, pyInt v = Except.error e →
      (∃ m, e = Err.valueError m) ∧
      ∀ (localtime : Int → Tm) (convert : Option Bool),
        install_time env localtime p convert = Except.error e) := by
  constructor
  · intro n hn localtime
    refine ⟨?_, ?_, ?_, ?_⟩
    · simp only [install_time, hinfo, bindOk]
      rw [hv]
      simp only [hn, bindOk, pureOk]
    · simp only [install_time, hinfo, bindOk]
      rw [hv]
      simp only [hn, bindOk, pureOk]
    · simp only [install_time, hinfo, bindOk]
      rw [hv]
      simp only [hn, bindOk, pureOk]
    · intro h1 h2 h3 h4 h5 h6
      exact matchesTimePattern_strftime (localtime n) h1 h2 h3 h4 h5 h6
  · intro e he
    refine ⟨pyInt_error_isValueError v e he, ?_⟩
    intro localtime convert
    simp only [install_time, hinfo, bindOk]
    rw [hv]
    simp only [he, bindErr]

/-- C8 witness: the well-formed world returns the raw epoch 1234 and a
pattern-conforming formatted string under the fixed clock. -/
theorem install_time_spec_witness :
    install_time envWithInfo clock0 ("com.a".data) (some false) =
      Except.ok (Sum.inl 1234) ∧
    install_time envWithInfo clock0 ("com.a".data) (some true) =
      Except.ok (Sum.inr (strftimeYmdHMS (clock0 1234))) ∧
    matchesTimePattern (strftimeYmdHMS (clock0 1234)) = true := by
  have h := (install_time_spec envWithInfo ("com.a".data)
    [("install-time".data, " 1234".data), ("version".data, " 1.0".data)]
    (" 1234".data) rfl rfl).1 1234 rfl clock0
  exact ⟨h.1, h.2.2.1,
    h.2.2.2 (by decide) (by decide) (by decide) (by decide) (by decide) (by decide)⟩

end MacPkgutil
